import Mathlib

/-!
# go-trans: the translation list handler

A shallow embedding of `TranslationListHandler` of `src/main/gotranslations.go`
and the properties of its request validation, store reconciliation, fallback
synthesis, response and logging.

Go strings are modelled by `String`.  What the handler receives from its
surroundings is explicit input:

* the decoded query parameters (`r.URL.Query()`) and the request header;
* the store session (`CassandraSession`): for the bound query arguments, the rows
  that `iter.Scan` yields before it returns false and the error of `iter.Close`;
* `strings.ToLower`, the order in which `range` visits the keys of a map, and the
  rendering of the elapsed time in the log line.
-/

namespace GoTrans

/-! ## Library: net/url, net/http, strconv, fmt, encoding/xml -/

/-- The decoded query of the request, `r.URL.Query()`: the key/value pairs in
the order of the query string.  `url.Values` maps a key to the list of the
values given for it; a key is in the map exactly when that list is non-empty. -/
abbrev Values := List (String × String)

/-- The map lookup `values[key]`: the values given for `key`, in order; the
`ok` of `args, ok := values[key]` is that this list is non-empty. -/
def Values.lookup (values : Values) (key : String) : List String :=
  (values.filter (fun p => p.1 = key)).map Prod.snd

/-- The request header: canonical key and value of each header line. -/
abbrev Header := List (String × String)

/-- The call `r.Header.Get(key)`: the first value of `key`, the empty string
when the header has none. -/
def Header.Get (h : Header) (key : String) : String :=
  match h.find? (fun p => p.1 = key) with
  | some p => p.2
  | none => ""

/-- The digits of `strconv.ParseUint(s, 10, 64)`: every character must be one
of `0`..`9`; `acc` is the value read so far. -/
def parseDigits : List Char → Nat → Option Nat
  | [], acc => some acc
  | c :: cs, acc =>
    if '0' ≤ c ∧ c ≤ '9' then parseDigits cs (acc * 10 + (c.toNat - '0'.toNat))
    else none

/-- The call `strconv.ParseInt(s, 10, 64)`; `none` is a non-nil error (syntax
or range).  An optional sign, then at least one decimal digit, and the value
must lie in `[-2^63, 2^63 - 1]`. -/
def ParseInt (s : String) : Option Int :=
  match s.data with
  | [] => none
  | c :: cs =>
    let neg := c = '-'
    let ds := if c = '+' ∨ c = '-' then cs else c :: cs
    match ds with
    | [] => none
    | d :: ds' =>
      match parseDigits (d :: ds') 0 with
      | none => none
      | some un =>
        if ¬ neg ∧ un ≥ 2 ^ 63 then none
        else if neg ∧ un > 2 ^ 63 then none
        else some (if neg then - (un : Int) else (un : Int))

/-- The constant `xml.Header`. -/
def xmlHeader : String := "<?xml version=\"1.0\" encoding=\"UTF-8\"?>\n"

/-- What the client receives. -/
structure Response where
  status : Nat
  header : List (String × String)
  body : String
  deriving DecidableEq, Repr

/-- The call `http.Error(w, error, code)` of net/http: it sets the content type
to plain text, writes the status code and then `fmt.Fprintln(w, error)`, the
message followed by a newline. -/
def httpError (error : String) (code : Nat) : Response :=
  { status := code
    header := [("Content-Type", "text/plain; charset=utf-8"),
               ("X-Content-Type-Options", "nosniff")]
    body := error ++ "\n" }

/-! ## Logging -/

inductive Level where
  | INFO
  | ERROR
  deriving DecidableEq, Repr

/-- One record of `Logger`: the level and the formatted message. -/
structure LogRecord where
  level : Level
  msg : String
  deriving DecidableEq, Repr

/-- The message of the completion record,
`"application.%s: finished handler TranslationListHandler: total=%0.2f code=…"`;
`total` is the rendering of the elapsed milliseconds and `code` the literal
of the format string. -/
def finishedMsg (requestId total code : String) : String :=
  "application." ++ requestId ++ ": finished handler TranslationListHandler: total="
    ++ total ++ " code=" ++ code

/-- The message of `Logger.Error("failed to get data from cassandra: %s", err)`. -/
def failedMsg (err : String) : String :=
  "failed to get data from cassandra: " ++ err

/-! ## The store -/

/-- One row of the result, as scanned into `name` and `value`. -/
structure Row where
  name : String
  value : String
  deriving DecidableEq, Repr

/-- The iterator of a query: the rows for which `iter.Scan` returns true, and
the error of `iter.Close` (`none` for nil). -/
structure Iter where
  rows : List Row
  err : Option String
  deriving DecidableEq, Repr

/-- The bound arguments of the one query of the handler,
`lang=? and site_id=? AND name IN ?`. -/
structure StoreQuery where
  lang : String
  site : Int
  names : List String
  deriving DecidableEq, Repr

/-- The session: the result of the query for given arguments. -/
abbrev Session := StoreQuery → Iter

/-- The surroundings of one invocation of the handler. -/
structure Runtime where
  /-- `CassandraSession` -/
  session : Session
  /-- `strings.ToLower`, the Unicode lower-casing of the Go library -/
  ToLower : String → String
  /-- The order in which `range` visits a map holding the given keys. -/
  mapRange : List String → List String
  /-- The rendering `%0.2f` of `time.Since(start).Seconds()*1000`. -/
  total : String

/-- The language guarantees of Go that the proofs rely on: `range` over a map
visits every key once. -/
def Runtime.Valid (rt : Runtime) : Prop :=
  ∀ m : List String, (rt.mapRange m).Perm m

/-- ASCII lower-casing, with which `strings.ToLower` agrees on ASCII strings. -/
def asciiToLower (s : String) : String := ⟨s.data.map Char.toLower⟩

/-! ## The buffer `res` -/

/-- One call `res.Write`, recorded with the arguments of its format. -/
inductive Write where
  /-- `res.Write([]byte(s))` for a constant `s` -/
  | raw (s : String)
  /-- `<translation name="%s">%s</translation>` with `name`, `value` -/
  | row (name value : String)
  /-- `<translation name="%s">[%s:%d][%s]</translation>` with `k`, the
  lower-cased language, `site`, `k` -/
  | missing (k lang : String) (site : Int)
  deriving DecidableEq, Repr

/-- The bytes written by the call. -/
def Write.bytes : Write → String
  | .raw s => s
  | .row name value => "<translation name=\"" ++ name ++ "\">" ++ value ++ "</translation>"
  | .missing k lang site =>
    "<translation name=\"" ++ k ++ "\">[" ++ lang ++ ":" ++ toString site ++ "][" ++ k
      ++ "]</translation>"

/-- The content of a buffer, `res.Bytes()`. -/
def bufferBytes (ws : List Write) : String := String.join (ws.map Write.bytes)

/-! ## The map `keys` -/

/-- The assignment `keys[k] = true` on a map given by the list of its keys. -/
def mapSet (keys : List String) (k : String) : List String :=
  if k ∈ keys then keys else keys ++ [k]

/-- The call `delete(keys, name)`. -/
def mapDelete (keys : List String) (name : String) : List String :=
  keys.filter (fun k => k ≠ name)

/-- The loop `for _, k := range tArgs { keys[k] = true }` on the empty map. -/
def makeKeys (tArgs : List String) : List String := tArgs.foldl mapSet []

/-- The loop `for iter.Scan(&name, &value) { delete(keys, name); res.Write(…) }`:
the map and the writes after the rows. -/
def scanLoop : List Row → List String → List String × List Write
  | [], keys => (keys, [])
  | r :: rows, keys =>
    let (keys', ws) := scanLoop rows (mapDelete keys r.name)
    (keys', Write.row r.name r.value :: ws)

/-- The loop `for k, _ := range keys { res.Write(…) }`. -/
def fallbackLoop (rt : Runtime) (lang : String) (site : Int) (keys : List String) :
    List Write :=
  (rt.mapRange keys).map (fun k => Write.missing k (rt.ToLower lang) site)

/-- The buffer `res` when `iter.Close` is reached (lines 70 to 88). -/
def fillBuffer (rt : Runtime) (lang : String) (site : Int) (tArgs : List String)
    (rows : List Row) : List Write :=
  let scanned := scanLoop rows (makeKeys tArgs)
  [Write.raw xmlHeader, Write.raw "<translations>"]
    ++ scanned.2 ++ fallbackLoop rt lang site scanned.1 ++ [Write.raw "</translations>"]

/-- The map `keys` when the second loop starts: the requested keys that no
scanned row has deleted. -/
def pendingKeys (tArgs : List String) (rows : List Row) : List String :=
  (scanLoop rows (makeKeys tArgs)).1

/-! ## The handler -/

/-- What one invocation does: the response, the log records in order, and the
queries issued to the store. -/
structure Outcome where
  response : Response
  log : List LogRecord
  queries : List StoreQuery
  deriving DecidableEq, Repr

/-- The outcome of a rejection: the completion record with code 400, then
`http.Error` with the message. -/
def reject (rt : Runtime) (requestId msg : String) : Outcome :=
  { response := httpError msg 400
    log := [⟨Level.INFO, finishedMsg requestId rt.total "400"⟩]
    queries := [] }

/-- The function `TranslationListHandler` (lines 36 to 98).  Each rejection
logs the completion record and replies with `http.Error`; after the four
checks the query is issued, the buffer filled from the rows, and `iter.Close`
decides between the 503 reply and writing the buffer. -/
def TranslationListHandler (rt : Runtime) (header : Header) (values : Values) : Outcome :=
  let requestId := header.Get "X-Request-Id"
  -- siteArgs, ok := values["site"]
  match values.lookup "site" with
  | [] => reject rt requestId "site param missing"
  | site0 :: _ =>
    -- site, err := strconv.ParseInt(siteArgs[0], 10, 64)
    match ParseInt site0 with
    | none => reject rt requestId "site param must be int"
    | some site =>
      -- langArgs, ok := values["lang"]
      match values.lookup "lang" with
      | [] => reject rt requestId "lang param missing"
      | lang0 :: _ =>
        -- tArgs, ok := values["t"]
        match values.lookup "t" with
        | [] => reject rt requestId "t params missing"
        | t0 :: ts =>
          let tArgs := t0 :: ts
          -- CassandraSession.Query(…, langArgs[0], site, tArgs).Iter()
          let q : StoreQuery := ⟨lang0, site, tArgs⟩
          let iter := rt.session q
          let res := fillBuffer rt lang0 site tArgs iter.rows
          -- if err := iter.Close(); err != nil
          match iter.err with
          | some err =>
            { response := httpError err 503
              log := [⟨Level.INFO, finishedMsg requestId rt.total "503"⟩,
                      ⟨Level.ERROR, failedMsg err⟩]
              queries := [q] }
          | none =>
            -- w.Header().Set("Content-Type", "text/xml"); w.Write(res.Bytes())
            { response :=
                { status := 200
                  header := [("Content-Type", "text/xml")]
                  body := bufferBytes res }
              log := [⟨Level.INFO, finishedMsg requestId rt.total "200"⟩]
              queries := [q] }

/-- The request passes the four checks of the handler: `site` is the parsed
first `site` value, `lang` the first `lang` value and `tArgs` the non-empty
list of the `t` values. -/
def Validated (values : Values) (site : Int) (lang : String) (tArgs : List String) : Prop :=
  (∃ s, (values.lookup "site").head? = some s ∧ ParseInt s = some site) ∧
    (values.lookup "lang").head? = some lang ∧
    values.lookup "t" = tArgs ∧ tArgs ≠ []

/-! ## Concrete surroundings used in the examples -/

/-- A session that answers every query with the same rows and error. -/
def constSession (rows : List Row) (err : Option String) : Session :=
  fun _ => ⟨rows, err⟩

/-- A runtime whose `range` visits the keys in insertion order. -/
def rtForward (s : Session) : Runtime :=
  { session := s, ToLower := asciiToLower, mapRange := id, total := "0.42" }

/-- A runtime whose `range` visits the keys in the reverse of insertion order. -/
def rtBackward (s : Session) : Runtime :=
  { session := s, ToLower := asciiToLower, mapRange := List.reverse, total := "0.42" }

/-- The query of the example request: `site=7&lang=EN&t=greeting&t=farewell`. -/
def exValues : Values :=
  [("site", "7"), ("lang", "EN"), ("t", "greeting"), ("t", "farewell")]

/-- The rows of the example store, which holds `greeting` only. -/
def exRows : List Row := [⟨"greeting", "Hi"⟩]

/-! ## Reading the elements of a body

The handler escapes nothing, so the elements of a response are read from its
bytes, as a client does: every position at which the opening
`<translation name="` stands starts an element. -/

/-- The opening of a `<translation>` element, up to its name. -/
def tagOpen : List Char := "<translation name=\"".data

/-- The name and the text of the element whose opening has just been read: the
name runs to the next `"`, the text from behind the `">` to the next `<`. -/
def readElement (cs : List Char) : String × String :=
  (⟨cs.takeWhile (fun c => c != '"')⟩,
   ⟨((cs.dropWhile (fun c => c != '"')).drop 2).takeWhile (fun c => c != '<')⟩)

/-- The `<translation>` elements in a sequence of characters, in order: name
and text of the element at every position where the opening stands. -/
def scanElements : List Char → List (String × String)
  | [] => []
  | c :: cs =>
    if tagOpen.isPrefixOf (c :: cs) then
      readElement ((c :: cs).drop tagOpen.length) :: scanElements cs
    else scanElements cs

/-- The `<translation>` elements of a response body, name and text. -/
def bodyElements (body : String) : List (String × String) := scanElements body.data

/-- The names of the `<translation>` elements of a response body. -/
def bodyElementNames (body : String) : List String := (bodyElements body).map Prod.fst

/-- The characters of one element, `<translation name="name">value</translation>`. -/
def elemChars (name value : List Char) : List Char :=
  tagOpen ++ name ++ ['"', '>'] ++ value ++ "</translation>".data

/-- The rows of the two counterexamples on markup in a stored value. -/
def exMarkupRows (name : String) : List Row :=
  [⟨"a", "x</translation><translation name=\"" ++ name ++ "\">FAKE"⟩]

/-- Nothing that the handler copies into the elements holds markup: no row
name, row value, requested key or lower-cased language holds `<`, and no row
name or requested key holds `"`. -/
def NoMarkup (rt : Runtime) (lang : String) (tArgs : List String) (rows : List Row) : Prop :=
  (∀ r ∈ rows, '<' ∉ r.name.data ∧ '"' ∉ r.name.data ∧ '<' ∉ r.value.data) ∧
    (∀ k ∈ tArgs, '<' ∉ k.data ∧ '"' ∉ k.data) ∧
    '<' ∉ (rt.ToLower lang).data

/-! ## Lemmas on the map and the two loops -/

theorem mem_mapSet (keys : List String) (k x : String) :
    x ∈ mapSet keys k ↔ x ∈ keys ∨ x = k := by
  unfold mapSet
  split
  · constructor
    · intro h; exact Or.inl h
    · rintro (h | rfl)
      · exact h
      · assumption
  · simp

theorem nodup_mapSet (keys : List String) (k : String) (h : keys.Nodup) :
    (mapSet keys k).Nodup := by
  unfold mapSet
  split
  · exact h
  · rename_i hk
    rw [List.nodup_append]
    refine ⟨h, List.nodup_singleton k, ?_⟩
    intro a ha hb
    simp only [List.mem_singleton] at hb
    subst hb
    exact hk ha

theorem mem_foldl_mapSet (tArgs : List String) :
    ∀ (acc : List String) (x : String),
      x ∈ tArgs.foldl mapSet acc ↔ x ∈ acc ∨ x ∈ tArgs := by
  induction tArgs with
  | nil => intro acc x; simp
  | cons t ts ih =>
    intro acc x
    rw [List.foldl_cons, ih, mem_mapSet, List.mem_cons]
    tauto

theorem nodup_foldl_mapSet (tArgs : List String) :
    ∀ acc : List String, acc.Nodup → (tArgs.foldl mapSet acc).Nodup := by
  induction tArgs with
  | nil => intro acc h; exact h
  | cons t ts ih =>
    intro acc h
    rw [List.foldl_cons]
    exact ih _ (nodup_mapSet acc t h)

theorem mem_makeKeys (tArgs : List String) (x : String) :
    x ∈ makeKeys tArgs ↔ x ∈ tArgs := by
  unfold makeKeys
  rw [mem_foldl_mapSet]
  simp

theorem nodup_makeKeys (tArgs : List String) : (makeKeys tArgs).Nodup :=
  nodup_foldl_mapSet tArgs [] List.nodup_nil

theorem scanLoop_writes (rows : List Row) :
    ∀ keys : List String,
      (scanLoop rows keys).2 = rows.map (fun r => Write.row r.name r.value) := by
  induction rows with
  | nil => intro keys; rfl
  | cons r rs ih =>
    intro keys
    simp only [scanLoop, List.map_cons]
    rw [ih]

theorem mem_scanLoop_keys (rows : List Row) :
    ∀ (keys : List String) (x : String),
      x ∈ (scanLoop rows keys).1 ↔ x ∈ keys ∧ ∀ r ∈ rows, r.name ≠ x := by
  induction rows with
  | nil => intro keys x; simp [scanLoop]
  | cons r rs ih =>
    intro keys x
    simp only [scanLoop]
    rw [ih]
    simp only [mapDelete, List.mem_filter, List.mem_cons, decide_eq_true_eq, ne_eq,
      forall_eq_or_imp]
    constructor
    · rintro ⟨⟨h1, h2⟩, h3⟩
      exact ⟨h1, fun h => h2 h.symm, h3⟩
    · rintro ⟨h1, h2, h3⟩
      exact ⟨⟨h1, fun h => h2 h.symm⟩, h3⟩

theorem nodup_scanLoop_keys (rows : List Row) :
    ∀ keys : List String, keys.Nodup → (scanLoop rows keys).1.Nodup := by
  induction rows with
  | nil => intro keys h; exact h
  | cons r rs ih =>
    intro keys h
    simp only [scanLoop]
    exact ih _ (h.filter _)

theorem mem_pendingKeys (tArgs : List String) (rows : List Row) (x : String) :
    x ∈ pendingKeys tArgs rows ↔ x ∈ tArgs ∧ ∀ r ∈ rows, r.name ≠ x := by
  unfold pendingKeys
  rw [mem_scanLoop_keys, mem_makeKeys]

theorem nodup_pendingKeys (tArgs : List String) (rows : List Row) :
    (pendingKeys tArgs rows).Nodup :=
  nodup_scanLoop_keys rows _ (nodup_makeKeys tArgs)

theorem fillBuffer_eq (rt : Runtime) (lang : String) (site : Int) (tArgs : List String)
    (rows : List Row) :
    fillBuffer rt lang site tArgs rows =
      [Write.raw xmlHeader, Write.raw "<translations>"]
        ++ rows.map (fun r => Write.row r.name r.value)
        ++ (rt.mapRange (pendingKeys tArgs rows)).map
            (fun k => Write.missing k (rt.ToLower lang) site)
        ++ [Write.raw "</translations>"] := by
  unfold fillBuffer fallbackLoop pendingKeys
  simp only [scanLoop_writes]

theorem join_append (a b : List String) :
    String.join (a ++ b) = String.join a ++ String.join b := by
  apply String.ext
  simp

theorem join_cons (a : String) (b : List String) :
    String.join (a :: b) = a ++ String.join b := by
  apply String.ext
  simp

theorem bufferBytes_fillBuffer (rt : Runtime) (lang : String) (site : Int)
    (tArgs : List String) (rows : List Row) :
    bufferBytes (fillBuffer rt lang site tArgs rows) =
      xmlHeader ++ "<translations>"
        ++ String.join (rows.map (fun r =>
            "<translation name=\"" ++ r.name ++ "\">" ++ r.value ++ "</translation>"))
        ++ String.join ((rt.mapRange (pendingKeys tArgs rows)).map (fun k =>
            "<translation name=\"" ++ k ++ "\">[" ++ rt.ToLower lang ++ ":" ++ toString site
              ++ "][" ++ k ++ "]</translation>"))
        ++ "</translations>" := by
  rw [fillBuffer_eq]
  unfold bufferBytes
  simp only [List.map_append, List.map_map, join_append, List.map_cons, List.map_nil,
    join_cons, Write.bytes]
  apply String.ext
  simp [Function.comp_def, Write.bytes]

/-! ## The handler after validation -/

theorem handler_validated (rt : Runtime) (header : Header) (values : Values) (site : Int)
    (lang : String) (tArgs : List String) (hv : Validated values site lang tArgs) :
    TranslationListHandler rt header values =
      match (rt.session ⟨lang, site, tArgs⟩).err with
      | some err =>
        { response := httpError err 503
          log := [⟨Level.INFO, finishedMsg (header.Get "X-Request-Id") rt.total "503"⟩,
                  ⟨Level.ERROR, failedMsg err⟩]
          queries := [⟨lang, site, tArgs⟩] }
      | none =>
        { response :=
            { status := 200
              header := [("Content-Type", "text/xml")]
              body := bufferBytes
                (fillBuffer rt lang site tArgs (rt.session ⟨lang, site, tArgs⟩).rows) }
          log := [⟨Level.INFO, finishedMsg (header.Get "X-Request-Id") rt.total "200"⟩]
          queries := [⟨lang, site, tArgs⟩] } := by
  obtain ⟨⟨s, hs, hp⟩, hl, ht, hne⟩ := hv
  unfold TranslationListHandler
  cases hsite : values.lookup "site" with
  | nil => rw [hsite] at hs; simp at hs
  | cons s0 ss =>
    rw [hsite] at hs
    simp only [List.head?_cons, Option.some.injEq] at hs
    subst hs
    simp only [hp]
    cases hlang : values.lookup "lang" with
    | nil => rw [hlang] at hl; simp at hl
    | cons l0 ls =>
      rw [hlang] at hl
      simp only [List.head?_cons, Option.some.injEq] at hl
      subst hl
      cases htt : values.lookup "t" with
      | nil => rw [htt] at ht; exact absurd ht.symm hne
      | cons t0 ts =>
        rw [htt] at ht
        subst ht
        simp only

theorem response_ok (rt : Runtime) (header : Header) (values : Values) (site : Int)
    (lang : String) (tArgs : List String) (rows : List Row)
    (hv : Validated values site lang tArgs)
    (hq : rt.session ⟨lang, site, tArgs⟩ = ⟨rows, none⟩) :
    (TranslationListHandler rt header values).response =
      { status := 200
        header := [("Content-Type", "text/xml")]
        body := bufferBytes (fillBuffer rt lang site tArgs rows) } := by
  rw [handler_validated rt header values site lang tArgs hv, hq]

theorem bufferBytes_of_mem (ws : List Write) (w : Write) (h : w ∈ ws) :
    ∃ pre post : String, bufferBytes ws = pre ++ w.bytes ++ post := by
  obtain ⟨s, t, rfl⟩ := List.append_of_mem h
  refine ⟨bufferBytes s, bufferBytes t, ?_⟩
  unfold bufferBytes
  rw [List.map_append, join_append, List.map_cons, join_cons, String.append_assoc]

theorem filter_eq_singleton (l : List String) (k : String) (hn : l.Nodup) (hk : k ∈ l) :
    l.filter (fun x => x = k) = [k] := by
  induction l with
  | nil => simp at hk
  | cons a as ih =>
    rw [List.nodup_cons] at hn
    by_cases hak : a = k
    · subst hak
      have : as.filter (fun x => decide (x = a)) = [] := by
        rw [List.filter_eq_nil_iff]
        intro x hx
        simp only [decide_eq_true_eq]
        rintro rfl
        exact hn.1 hx
      simp [List.filter_cons, this]
    · have hk2 : k ∈ as := by
        rcases List.mem_cons.mp hk with h | h
        · exact absurd h.symm hak
        · exact h
      simp [List.filter_cons, hak, ih hn.2 hk2]

theorem handler_reject_or_validated (header : Header) (values : Values) :
    (∃ msg, ∀ rt : Runtime,
        TranslationListHandler rt header values = reject rt (header.Get "X-Request-Id") msg) ∨
      ∃ site lang tArgs, Validated values site lang tArgs := by
  cases hsite : values.lookup "site" with
  | nil =>
    left
    refine ⟨"site param missing", fun rt => ?_⟩
    unfold TranslationListHandler
    simp only [hsite]
  | cons s0 ss =>
    cases hp : ParseInt s0 with
    | none =>
      left
      refine ⟨"site param must be int", fun rt => ?_⟩
      unfold TranslationListHandler
      simp only [hsite, hp]
    | some site =>
      cases hlang : values.lookup "lang" with
      | nil =>
        left
        refine ⟨"lang param missing", fun rt => ?_⟩
        unfold TranslationListHandler
        simp only [hsite, hp, hlang]
      | cons l0 ls =>
        cases htt : values.lookup "t" with
        | nil =>
          left
          refine ⟨"t params missing", fun rt => ?_⟩
          unfold TranslationListHandler
          simp only [hsite, hp, hlang, htt]
        | cons t0 ts =>
          right
          refine ⟨site, l0, t0 :: ts, ⟨s0, ?_, hp⟩, ?_, htt, ?_⟩
          · rw [hsite]; rfl
          · rw [hlang]; rfl
          · simp

theorem validated_status (rt : Runtime) (header : Header) (values : Values) (site : Int)
    (lang : String) (tArgs : List String) (hv : Validated values site lang tArgs) :
    (TranslationListHandler rt header values).response.status = 200 ∨
      (TranslationListHandler rt header values).response.status = 503 := by
  rw [handler_validated rt header values site lang tArgs hv]
  cases (rt.session ⟨lang, site, tArgs⟩).err with
  | none => left; rfl
  | some e => right; rfl

theorem head?_data_append (a b : String) (c : Char) (h : a.data.head? = some c) :
    (a ++ b).data.head? = some c := by
  rw [String.data_append]
  cases hd : a.data with
  | nil => rw [hd] at h; simp at h
  | cons x xs => rw [hd] at h; simpa using h

theorem finishedMsg_ne_failedMsg (requestId total code err : String) :
    failedMsg err ≠ finishedMsg requestId total code := by
  intro h
  have h1 : (failedMsg err).data.head? = some 'f' :=
    head?_data_append _ _ _ (by decide)
  have h2 : (finishedMsg requestId total code).data.head? = some 'a' := by
    unfold finishedMsg
    exact head?_data_append _ _ _ (head?_data_append _ _ _ (head?_data_append _ _ _
      (head?_data_append _ _ _ (head?_data_append _ _ _ (by decide)))))
  rw [h, h2] at h1
  exact absurd h1 (by decide)

theorem ParseInt_range (s : String) (site : Int) (h : ParseInt s = some site) :
    -(2 : Int) ^ 63 ≤ site ∧ site < (2 : Int) ^ 63 := by
  unfold ParseInt at h
  split at h
  · simp at h
  · rename_i c cs _
    simp only at h
    split at h
    · simp at h
    · split at h
      · simp at h
      · rename_i un _
        split at h
        · simp at h
        · split at h
          · simp at h
          · rename_i h1 h2
            simp only [Option.some.injEq] at h
            subst h
            by_cases hneg : c = '-'
            · simp only [hneg, decide_True, not_true_eq_false, false_and, not_false_eq_true,
                true_and, not_lt, if_true] at h1 h2 ⊢
              omega
            · simp only [hneg, decide_False, not_false_eq_true, true_and, not_le,
                false_and, if_false] at h1 h2 ⊢
              omega

theorem toString_200 : toString (200 : Nat) = "200" := by decide

theorem toString_400 : toString (400 : Nat) = "400" := by decide

theorem toString_503 : toString (503 : Nat) = "503" := by decide

theorem perm_eq_of_length_le_one (l m : List String) (h : l.Perm m) (hm : m.length ≤ 1) :
    l = m := by
  match m, hm with
  | [], _ => exact List.perm_nil.mp h
  | [a], _ => exact List.perm_singleton.mp h

/-! ## Lemmas on reading the elements of a body -/

theorem isPrefixOf_tagOpen_of_ne (c : Char) (cs : List Char) (h : c ≠ '<') :
    tagOpen.isPrefixOf (c :: cs) = false := by
  have e : tagOpen = '<' :: "translation name=\"".data := by rfl
  rw [e, List.isPrefixOf]
  have : ('<' == c) = false := by
    rw [beq_eq_false_iff_ne]
    exact fun h2 => h h2.symm
  rw [this, Bool.false_and]

theorem scanElements_skip (l rest : List Char) (h : '<' ∉ l) :
    scanElements (l ++ rest) = scanElements rest := by
  induction l with
  | nil => rfl
  | cons c l ih =>
    have hc : c ≠ '<' := fun e => h (e ▸ List.mem_cons_self _ _)
    have hl : '<' ∉ l := fun m => h (List.mem_cons_of_mem _ m)
    rw [List.cons_append, scanElements, isPrefixOf_tagOpen_of_ne _ _ hc]
    simpa using ih hl

theorem scanElements_xmlHeader (rest : List Char) :
    scanElements (xmlHeader.data ++ rest) = scanElements rest := by
  have e : xmlHeader.data ++ rest
      = '<' :: ("?xml version=\"1.0\" encoding=\"UTF-8\"?>\n".data ++ rest) := by rfl
  rw [e, scanElements]
  have hp : tagOpen.isPrefixOf
      ('<' :: ("?xml version=\"1.0\" encoding=\"UTF-8\"?>\n".data ++ rest)) = false := by rfl
  rw [hp]
  simpa using scanElements_skip "?xml version=\"1.0\" encoding=\"UTF-8\"?>\n".data rest (by decide)

theorem scanElements_root (rest : List Char) :
    scanElements ("<translations>".data ++ rest) = scanElements rest := by
  have e : "<translations>".data ++ rest = '<' :: ("translations>".data ++ rest) := by rfl
  rw [e, scanElements]
  have hp : tagOpen.isPrefixOf ('<' :: ("translations>".data ++ rest)) = false := by rfl
  rw [hp]
  simpa using scanElements_skip "translations>".data rest (by decide)

theorem scanElements_close (rest : List Char) :
    scanElements ("</translation>".data ++ rest) = scanElements rest := by
  have e : "</translation>".data ++ rest = '<' :: ("/translation>".data ++ rest) := by rfl
  rw [e, scanElements]
  have hp : tagOpen.isPrefixOf ('<' :: ("/translation>".data ++ rest)) = false := by rfl
  rw [hp]
  simpa using scanElements_skip "/translation>".data rest (by decide)

theorem scanElements_rootClose : scanElements "</translations>".data = [] := by rfl

theorem takeWhile_append_cons (p : Char → Bool) (l : List Char) (a : Char) (r : List Char)
    (hl : ∀ c ∈ l, p c = true) (ha : p a = false) : (l ++ a :: r).takeWhile p = l := by
  induction l with
  | nil => simp [List.takeWhile, ha]
  | cons c l ih =>
    have hc := hl c (List.mem_cons_self _ _)
    rw [List.cons_append, List.takeWhile_cons, hc]
    simp only [if_true]
    rw [ih (fun x hx => hl x (List.mem_cons_of_mem _ hx))]

theorem dropWhile_append_cons (p : Char → Bool) (l : List Char) (a : Char) (r : List Char)
    (hl : ∀ c ∈ l, p c = true) (ha : p a = false) : (l ++ a :: r).dropWhile p = a :: r := by
  induction l with
  | nil => simp [List.dropWhile, ha]
  | cons c l ih =>
    have hc := hl c (List.mem_cons_self _ _)
    rw [List.cons_append, List.dropWhile_cons, hc]
    simp only [if_true]
    exact ih (fun x hx => hl x (List.mem_cons_of_mem _ hx))

theorem bne_of_not_mem (a : Char) (l : List Char) (h : a ∉ l) :
    ∀ c ∈ l, (c != a) = true := by
  intro c hc
  rw [bne_iff_ne]
  rintro rfl
  exact h hc

theorem scanElements_tagOpen (X : List Char) :
    scanElements (tagOpen ++ X) = readElement X :: scanElements (tagOpen.tail ++ X) := by
  have e : tagOpen ++ X = '<' :: (tagOpen.tail ++ X) := by rfl
  have hp : tagOpen.isPrefixOf ('<' :: (tagOpen.tail ++ X)) = true := by
    rw [← e, List.isPrefixOf_iff_prefix]
    exact List.prefix_append _ _
  have hd : ('<' :: (tagOpen.tail ++ X)).drop tagOpen.length = X := by
    rw [← e]
    exact List.drop_left _ _
  rw [e, scanElements, hp, hd]
  rfl

theorem scanElements_elem (name value rest : List Char) (hn : '<' ∉ name)
    (hq : '"' ∉ name) (hv : '<' ∉ value) :
    scanElements (elemChars name value ++ rest)
      = (⟨name⟩, ⟨value⟩) :: scanElements rest := by
  have e : elemChars name value ++ rest
      = tagOpen ++ (name ++ '"' :: '>' :: (value ++ '<' :: ("/translation>".data ++ rest))) := by
    simp only [elemChars, List.append_assoc]
    rfl
  have hread : readElement (name ++ '"' :: '>' :: (value ++ '<' :: ("/translation>".data ++ rest)))
      = (⟨name⟩, ⟨value⟩) := by
    unfold readElement
    rw [takeWhile_append_cons _ name '"' _ (bne_of_not_mem _ _ hq) (by decide),
      dropWhile_append_cons _ name '"' _ (bne_of_not_mem _ _ hq) (by decide)]
    simp only [List.drop_succ_cons, List.drop_zero]
    rw [takeWhile_append_cons _ value '<' _ (bne_of_not_mem _ _ hv) (by decide)]
  have hskip : '<' ∉ tagOpen.tail ++ (name ++ '"' :: '>' :: value) := by
    simp only [List.mem_append, List.mem_cons, not_or]
    exact ⟨by decide, hn, by decide, by decide, hv⟩
  have e2 : tagOpen.tail
        ++ (name ++ '"' :: '>' :: (value ++ '<' :: ("/translation>".data ++ rest)))
      = (tagOpen.tail ++ (name ++ '"' :: '>' :: value))
          ++ ("</translation>".data ++ rest) := by
    simp only [List.append_assoc, List.cons_append]
  rw [e, scanElements_tagOpen, hread, e2, scanElements_skip _ _ hskip, scanElements_close]

theorem scanElements_elems (es : List (List Char × List Char)) (rest : List Char)
    (h : ∀ e ∈ es, '<' ∉ e.1 ∧ '"' ∉ e.1 ∧ '<' ∉ e.2) :
    scanElements ((es.map (fun e => elemChars e.1 e.2)).flatten ++ rest)
      = es.map (fun e => ((⟨e.1⟩ : String), (⟨e.2⟩ : String))) ++ scanElements rest := by
  induction es with
  | nil => simp only [List.map_nil, List.flatten_nil, List.nil_append]
  | cons e es ih =>
    obtain ⟨h1, h2, h3⟩ := h e (List.mem_cons_self _ _)
    rw [List.map_cons, List.flatten_cons, List.append_assoc, scanElements_elem _ _ _ h1 h2 h3,
      ih (fun x hx => h x (List.mem_cons_of_mem _ hx)), List.map_cons, List.cons_append]

theorem digitChar_ne_lt (n : Nat) : Nat.digitChar (n % 10) ≠ '<' := by
  have h : n % 10 < 10 := Nat.mod_lt _ (by decide)
  generalize n % 10 = m at h
  interval_cases m <;> decide

theorem toDigitsCore_no_lt (fuel : Nat) :
    ∀ (n : Nat) (ds : List Char), '<' ∉ ds → '<' ∉ Nat.toDigitsCore 10 fuel n ds := by
  induction fuel with
  | zero => intro n ds h; exact h
  | succ f ih =>
    intro n ds h
    have hds : '<' ∉ Nat.digitChar (n % 10) :: ds := by
      rw [List.mem_cons, not_or]
      exact ⟨fun e => digitChar_ne_lt n e.symm, h⟩
    unfold Nat.toDigitsCore
    simp only
    split
    · exact hds
    · exact ih _ _ hds

theorem toString_nat_no_lt (n : Nat) : '<' ∉ (toString n).data := by
  show '<' ∉ Nat.toDigitsCore 10 (n + 1) n []
  exact toDigitsCore_no_lt _ _ _ (List.not_mem_nil _)

theorem toString_int_no_lt (site : Int) : '<' ∉ (toString site).data := by
  cases site with
  | ofNat m => exact toString_nat_no_lt m
  | negSucc m =>
    show '<' ∉ ("-" ++ toString (Nat.succ m)).data
    rw [String.data_append, List.mem_append, not_or]
    exact ⟨by decide, toString_nat_no_lt _⟩

/-- The elements read from the body of a response to a validated request, when
no row name, row value, pending key or lower-cased language holds `<` and no
name holds `"`: the rows in order, then the fallbacks in range order. -/
theorem bodyElements_fillBuffer (rt : Runtime) (lang : String) (site : Int)
    (tArgs : List String) (rows : List Row)
    (hrows : ∀ r ∈ rows, '<' ∉ r.name.data ∧ '"' ∉ r.name.data ∧ '<' ∉ r.value.data)
    (hkeys : ∀ k ∈ rt.mapRange (pendingKeys tArgs rows), '<' ∉ k.data ∧ '"' ∉ k.data)
    (hlang : '<' ∉ (rt.ToLower lang).data) :
    bodyElements (bufferBytes (fillBuffer rt lang site tArgs rows))
      = rows.map (fun r => (r.name, r.value))
        ++ (rt.mapRange (pendingKeys tArgs rows)).map (fun k =>
            (k, "[" ++ rt.ToLower lang ++ ":" ++ toString site ++ "][" ++ k ++ "]")) := by
  let fb : String → String := fun k =>
    "[" ++ rt.ToLower lang ++ ":" ++ toString site ++ "][" ++ k ++ "]"
  let es : List (List Char × List Char) :=
    rows.map (fun r => (r.name.data, r.value.data))
      ++ (rt.mapRange (pendingKeys tArgs rows)).map (fun k => (k.data, (fb k).data))
  have hes : ∀ e ∈ es, '<' ∉ e.1 ∧ '"' ∉ e.1 ∧ '<' ∉ e.2 := by
    intro e he
    rcases List.mem_append.mp he with h | h
    · obtain ⟨r, hr, rfl⟩ := List.mem_map.mp h
      exact hrows r hr
    · obtain ⟨k, hk, rfl⟩ := List.mem_map.mp h
      obtain ⟨h1, h2⟩ := hkeys k hk
      refine ⟨h1, h2, ?_⟩
      show '<' ∉ ("[" ++ rt.ToLower lang ++ ":" ++ toString site ++ "][" ++ k ++ "]").data
      simp only [String.data_append, List.mem_append, not_or]
      exact ⟨⟨⟨⟨⟨⟨by decide, hlang⟩, by decide⟩, toString_int_no_lt site⟩, by decide⟩, h1⟩,
        by decide⟩
  have h1 : rows.map (String.data ∘ fun r : Row =>
        "<translation name=\"" ++ r.name ++ "\">" ++ r.value ++ "</translation>")
      = (rows.map (fun r => (r.name.data, r.value.data))).map (fun e => elemChars e.1 e.2) := by
    rw [List.map_map]
    apply List.map_congr_left
    intro r _
    simp only [Function.comp_apply, String.data_append, elemChars, List.append_assoc]
    rfl
  have h2 : (rt.mapRange (pendingKeys tArgs rows)).map (String.data ∘ fun k : String =>
        "<translation name=\"" ++ k ++ "\">[" ++ rt.ToLower lang ++ ":" ++ toString site
          ++ "][" ++ k ++ "]</translation>")
      = ((rt.mapRange (pendingKeys tArgs rows)).map (fun k => (k.data, (fb k).data))).map
          (fun e => elemChars e.1 e.2) := by
    rw [List.map_map]
    apply List.map_congr_left
    intro k _
    simp only [Function.comp_apply, String.data_append, elemChars, List.append_assoc, fb]
    rfl
  have hdata : (bufferBytes (fillBuffer rt lang site tArgs rows)).data
      = xmlHeader.data ++ ("<translations>".data
          ++ ((es.map (fun e => elemChars e.1 e.2)).flatten ++ "</translations>".data)) := by
    rw [bufferBytes_fillBuffer]
    rw [String.data_append, String.data_append, String.data_append, String.data_append,
      String.data_join, String.data_join, List.map_map, List.map_map, h1, h2]
    simp only [es, List.map_append, List.flatten_append, List.append_assoc]
  unfold bodyElements
  rw [hdata, scanElements_xmlHeader, scanElements_root, scanElements_elems es _ hes,
    scanElements_rootClose, List.append_nil]
  simp only [es, List.map_append, List.map_map]
  congr 1

theorem bodyElements_response (rt : Runtime) (header : Header) (values : Values)
    (site : Int) (lang : String) (tArgs : List String) (rows : List Row)
    (hrt : rt.Valid) (hv : Validated values site lang tArgs)
    (hq : rt.session ⟨lang, site, tArgs⟩ = ⟨rows, none⟩)
    (hclean : NoMarkup rt lang tArgs rows) :
    bodyElements (TranslationListHandler rt header values).response.body
      = rows.map (fun r => (r.name, r.value))
        ++ (rt.mapRange (pendingKeys tArgs rows)).map (fun k =>
            (k, "[" ++ rt.ToLower lang ++ ":" ++ toString site ++ "][" ++ k ++ "]")) := by
  rw [response_ok rt header values site lang tArgs rows hv hq]
  apply bodyElements_fillBuffer rt lang site tArgs rows hclean.1 _ hclean.2.2
  intro k hk
  have hp := (hrt (pendingKeys tArgs rows)).mem_iff.mp hk
  exact hclean.2.1 k ((mem_pendingKeys tArgs rows k).mp hp).1

theorem mem_mapRange (rt : Runtime) (hrt : rt.Valid) (tArgs : List String) (rows : List Row)
    (k : String) :
    k ∈ rt.mapRange (pendingKeys tArgs rows) ↔ k ∈ tArgs ∧ k ∉ rows.map Row.name := by
  rw [(hrt (pendingKeys tArgs rows)).mem_iff, mem_pendingKeys]
  simp only [List.mem_map, not_exists, not_and]

theorem log_shape (rt : Runtime) (header : Header) (values : Values) :
    (∃ rest : List LogRecord,
        (TranslationListHandler rt header values).log
          = ⟨Level.INFO, finishedMsg (header.Get "X-Request-Id") rt.total
              (toString (TranslationListHandler rt header values).response.status)⟩ :: rest ∧
        ∀ r ∈ rest, ∀ requestId total code, r.msg ≠ finishedMsg requestId total code) ∧
      ((TranslationListHandler rt header values).response.status = 200 ∨
        (TranslationListHandler rt header values).response.status = 400 ∨
        (TranslationListHandler rt header values).response.status = 503) := by
  rcases handler_reject_or_validated header values with ⟨msg, h⟩ | ⟨site, lang, tArgs, hv⟩
  · rw [h rt]
    refine ⟨⟨[], ?_, by simp⟩, Or.inr (Or.inl rfl)⟩
    show _ = [⟨Level.INFO, finishedMsg _ _ (toString (400 : Nat))⟩]
    rw [toString_400]
    rfl
  · rw [handler_validated rt header values site lang tArgs hv]
    cases (rt.session ⟨lang, site, tArgs⟩).err with
    | none =>
      refine ⟨⟨[], ?_, by simp⟩, Or.inl rfl⟩
      show _ = [⟨Level.INFO, finishedMsg _ _ (toString (200 : Nat))⟩]
      rw [toString_200]
    | some e =>
      refine ⟨⟨[⟨Level.ERROR, failedMsg e⟩], ?_, ?_⟩, Or.inr (Or.inr rfl)⟩
      · show _ = [⟨Level.INFO, finishedMsg _ _ (toString (503 : Nat))⟩, _]
        rw [toString_503]
      intro r hr requestId total code
      rw [List.mem_singleton] at hr
      subst hr
      exact finishedMsg_ne_failedMsg requestId total code e

theorem headerGet_first (pre : List (String × String)) (key v : String)
    (post : List (String × String)) (h : ∀ p ∈ pre, p.1 ≠ key) :
    Header.Get (pre ++ (key, v) :: post) key = v := by
  unfold Header.Get
  induction pre with
  | nil => simp
  | cons p ps ih =>
    have hp : p.1 ≠ key := h p (List.mem_cons_self _ _)
    rw [List.cons_append, List.find?_cons]
    simp only [hp, decide_False]
    exact ih (fun x hx => h x (List.mem_cons_of_mem _ hx))

/-! ## The example request -/

theorem exValues_validated : Validated exValues 7 "EN" ["greeting", "farewell"] :=
  ⟨⟨"7", by decide, by decide⟩, by decide, by decide, by decide⟩

theorem rtForward_valid (s : Session) : (rtForward s).Valid :=
  fun m => List.Perm.refl m

theorem rtBackward_valid (s : Session) : (rtBackward s).Valid :=
  fun m => List.reverse_perm m

theorem exNoMarkup (rt : Runtime) (h : rt.ToLower = asciiToLower) :
    NoMarkup rt "EN" ["greeting", "farewell"] exRows := by
  refine ⟨by decide, by decide, ?_⟩
  rw [h]
  decide

/-! ## The claims -/

set_option maxRecDepth 100000

/-- C10: for a request that passes validation and rows `r1..rn` returned
without error, the response is 200 with content type `text/xml`, and its body
is the XML declaration, the opening `<translations>`, one `<translation>`
element per returned row in the order of the rows, then one fallback element
per key still pending, in the order in which `range` visits them (each pending
key once), and the closing tag; no fallback element precedes a row element. -/
theorem rows_in_store_order_then_fallbacks (rt : Runtime) (header : Header)
    (values : Values) (site : Int) (lang : String) (tArgs : List String) (rows : List Row)
    (hrt : rt.Valid) (hv : Validated values site lang tArgs)
    (hq : rt.session ⟨lang, site, tArgs⟩ = ⟨rows, none⟩) :
    (TranslationListHandler rt header values).response =
        { status := 200
          header := [("Content-Type", "text/xml")]
          body := "<?xml version=\"1.0\" encoding=\"UTF-8\"?>\n" ++ "<translations>"
            ++ String.join (rows.map (fun r =>
                "<translation name=\"" ++ r.name ++ "\">" ++ r.value ++ "</translation>"))
            ++ String.join ((rt.mapRange (pendingKeys tArgs rows)).map (fun k =>
                "<translation name=\"" ++ k ++ "\">[" ++ rt.ToLower lang ++ ":"
                  ++ toString site ++ "][" ++ k ++ "]</translation>"))
            ++ "</translations>" } ∧
      (rt.mapRange (pendingKeys tArgs rows)).Perm (pendingKeys tArgs rows) ∧
      (pendingKeys tArgs rows).Nodup ∧
      ∀ k, k ∈ pendingKeys tArgs rows ↔ k ∈ tArgs ∧ ∀ r ∈ rows, r.name ≠ k := by
  refine ⟨?_, hrt _, nodup_pendingKeys tArgs rows, mem_pendingKeys tArgs rows⟩
  rw [response_ok rt header values site lang tArgs rows hv hq, bufferBytes_fillBuffer]
  rfl

theorem rows_in_store_order_then_fallbacks_witness :
    (TranslationListHandler (rtForward (constSession exRows none)) [] exValues).response =
        { status := 200
          header := [("Content-Type", "text/xml")]
          body := "<?xml version=\"1.0\" encoding=\"UTF-8\"?>\n<translations>"
            ++ "<translation name=\"greeting\">Hi</translation>"
            ++ "<translation name=\"farewell\">[en:7][farewell]</translation>"
            ++ "</translations>" } ∧
      pendingKeys ["greeting", "farewell"] exRows = ["farewell"] :=
  ⟨(rows_in_store_order_then_fallbacks (rtForward (constSession exRows none)) [] exValues 7
      "EN" ["greeting", "farewell"] exRows (rtForward_valid _) exValues_validated rfl).1,
    by decide⟩

/-- C2 (as stated, refuted): the request `site=7&lang=EN&t=a&t=k` passes
validation and the store returns, without error, one row named `a` whose value
holds markup; `k` is requested and is the name of no row, yet the body of the
200 response holds two `<translation>` elements named `k`, the first with the
text `FAKE` from the stored value, because the value is copied unescaped. -/
theorem markup_in_value_adds_element :
    Validated [("site", "7"), ("lang", "EN"), ("t", "a"), ("t", "k")] 7 "EN" ["a", "k"] ∧
      (∀ r ∈ exMarkupRows "k", r.name ≠ "k") ∧
      (TranslationListHandler (rtForward (constSession (exMarkupRows "k") none)) []
          [("site", "7"), ("lang", "EN"), ("t", "a"), ("t", "k")]).response
        = { status := 200
            header := [("Content-Type", "text/xml")]
            body := "<?xml version=\"1.0\" encoding=\"UTF-8\"?>\n<translations>"
              ++ "<translation name=\"a\">x</translation>"
              ++ "<translation name=\"k\">FAKE</translation>"
              ++ "<translation name=\"k\">[en:7][k]</translation>"
              ++ "</translations>" } ∧
      bodyElements (TranslationListHandler (rtForward (constSession (exMarkupRows "k") none)) []
          [("site", "7"), ("lang", "EN"), ("t", "a"), ("t", "k")]).response.body
        = [("a", "x"), ("k", "FAKE"), ("k", "[en:7][k]")] ∧
      ((bodyElements (TranslationListHandler
          (rtForward (constSession (exMarkupRows "k") none)) []
          [("site", "7"), ("lang", "EN"), ("t", "a"), ("t", "k")]).response.body).filter
            (fun e => e.1 = "k")).length = 2 := by
  refine ⟨⟨⟨"7", by decide, by decide⟩, by decide, by decide, by decide⟩, by decide, by rfl,
    by rfl, by rfl⟩

/-- C2 (amended): for a request that passes validation, with `site` the parsed
first `site` value and `lang` the first `lang` value, rows returned without
error, and nothing copied into the body holding markup (no `<` in a row name,
row value, requested key or the lower-cased language, no `"` in a row name or
requested key): for every requested key `k` that is the name of no row, the
200 response body holds exactly one `<translation>` element named `k`, its
text is `[lower(lang):site][k]` with `site` in decimal, and the body contains
the bytes `<translation name="k">[lower(lang):site][k]</translation>`. -/
theorem fallback_for_missing_key (rt : Runtime) (header : Header) (values : Values)
    (site : Int) (lang : String) (tArgs : List String) (rows : List Row) (k : String)
    (hrt : rt.Valid) (hv : Validated values site lang tArgs)
    (hq : rt.session ⟨lang, site, tArgs⟩ = ⟨rows, none⟩)
    (hclean : NoMarkup rt lang tArgs rows)
    (hk : k ∈ tArgs) (hmiss : ∀ r ∈ rows, r.name ≠ k) :
    (TranslationListHandler rt header values).response.status = 200 ∧
      (bodyElements (TranslationListHandler rt header values).response.body).filter
          (fun e => e.1 = k)
        = [(k, "[" ++ rt.ToLower lang ++ ":" ++ toString site ++ "][" ++ k ++ "]")] ∧
      ∃ pre post : String, (TranslationListHandler rt header values).response.body
        = pre ++ ("<translation name=\"" ++ k ++ "\">[" ++ rt.ToLower lang ++ ":"
            ++ toString site ++ "][" ++ k ++ "]</translation>") ++ post := by
  have hresp := response_ok rt header values site lang tArgs rows hv hq
  have hperm := hrt (pendingKeys tArgs rows)
  have hnd : (rt.mapRange (pendingKeys tArgs rows)).Nodup :=
    hperm.nodup_iff.mpr (nodup_pendingKeys tArgs rows)
  have hmem : k ∈ rt.mapRange (pendingKeys tArgs rows) :=
    hperm.mem_iff.mpr ((mem_pendingKeys tArgs rows k).mpr ⟨hk, hmiss⟩)
  refine ⟨by rw [hresp], ?_, ?_⟩
  · rw [bodyElements_response rt header values site lang tArgs rows hrt hv hq hclean,
      List.filter_append, List.filter_map, List.filter_map]
    have h1 : List.filter ((fun e : String × String => decide (e.1 = k)) ∘
        fun r : Row => (r.name, r.value)) rows = [] := by
      rw [List.filter_eq_nil_iff]
      intro r hr
      simp only [Function.comp_apply, decide_eq_true_eq]
      exact hmiss r hr
    have h2 : List.filter ((fun e : String × String => decide (e.1 = k)) ∘
        fun x : String =>
          (x, "[" ++ rt.ToLower lang ++ ":" ++ toString site ++ "][" ++ x ++ "]"))
          (rt.mapRange (pendingKeys tArgs rows)) = [k] := by
      have := filter_eq_singleton _ k hnd hmem
      simpa [Function.comp_def] using this
    rw [h1, h2]
    rfl
  · rw [hresp]
    have hin : Write.missing k (rt.ToLower lang) site ∈ fillBuffer rt lang site tArgs rows := by
      rw [fillBuffer_eq]
      simp only [List.mem_append, List.mem_map]
      exact Or.inl (Or.inr ⟨k, hmem, rfl⟩)
    exact bufferBytes_of_mem _ _ hin

theorem fallback_for_missing_key_witness :
    (TranslationListHandler (rtForward (constSession exRows none)) [] exValues).response.status
        = 200 ∧
      (bodyElements (TranslationListHandler (rtForward (constSession exRows none)) []
          exValues).response.body).filter (fun e => e.1 = "farewell")
        = [("farewell", "[" ++ asciiToLower "EN" ++ ":" ++ toString (7 : Int) ++ "]["
            ++ "farewell" ++ "]")] ∧
      "[" ++ asciiToLower "EN" ++ ":" ++ toString (7 : Int) ++ "][" ++ "farewell" ++ "]"
        = "[en:7][farewell]" :=
  have h := fallback_for_missing_key (rtForward (constSession exRows none)) [] exValues 7
    "EN" ["greeting", "farewell"] exRows "farewell" (rtForward_valid _) exValues_validated rfl
    (exNoMarkup _ rfl) (by decide) (by decide)
  ⟨h.1, h.2.1, by decide⟩

/-- C3: for a request that passes validation and a row `(n, v)` returned by the
store (no store error) whose name is a requested key, the response is 200, its
body is the content of the buffer and contains the bytes
`<translation name="n">v</translation>` with `v` unchanged, and the buffer
holds no fallback write for `n`: every element named `n` is a row element. -/
theorem store_hit_verbatim (rt : Runtime) (header : Header) (values : Values)
    (site : Int) (lang : String) (tArgs : List String) (rows : List Row) (r : Row)
    (hrt : rt.Valid) (hv : Validated values site lang tArgs)
    (hq : rt.session ⟨lang, site, tArgs⟩ = ⟨rows, none⟩)
    (hr : r ∈ rows) (_hreq : r.name ∈ tArgs) :
    (TranslationListHandler rt header values).response.status = 200 ∧
      (TranslationListHandler rt header values).response.body
        = bufferBytes (fillBuffer rt lang site tArgs rows) ∧
      Write.row r.name r.value ∈ fillBuffer rt lang site tArgs rows ∧
      (∃ pre post : String, (TranslationListHandler rt header values).response.body
        = pre ++ ("<translation name=\"" ++ r.name ++ "\">" ++ r.value ++ "</translation>")
            ++ post) ∧
      (∀ l s, Write.missing r.name l s ∉ fillBuffer rt lang site tArgs rows) ∧
      r.name ∉ rt.mapRange (pendingKeys tArgs rows) := by
  have hresp := response_ok rt header values site lang tArgs rows hv hq
  have hnot : r.name ∉ rt.mapRange (pendingKeys tArgs rows) := by
    intro h
    have h2 := (hrt (pendingKeys tArgs rows)).mem_iff.mp h
    exact ((mem_pendingKeys tArgs rows r.name).mp h2).2 r hr rfl
  have hin : Write.row r.name r.value ∈ fillBuffer rt lang site tArgs rows := by
    rw [fillBuffer_eq]
    simp only [List.mem_append, List.mem_map]
    exact Or.inl (Or.inl (Or.inr ⟨r, hr, rfl⟩))
  refine ⟨by rw [hresp], by rw [hresp], hin, ?_, ?_, hnot⟩
  · rw [hresp]
    exact bufferBytes_of_mem _ _ hin
  · intro l s hmem
    rw [fillBuffer_eq] at hmem
    simp only [List.mem_append, List.mem_map, List.mem_cons, List.mem_singleton,
      List.not_mem_nil, or_false] at hmem
    rcases hmem with ((h | h) | h) | h
    · rcases h with h | h <;> cases h
    · obtain ⟨_, _, h⟩ := h; cases h
    · obtain ⟨k, hk, h⟩ := h
      injection h with h1 _ _
      exact hnot (h1 ▸ hk)
    · cases h

theorem store_hit_verbatim_witness :
    Write.row "greeting" "Hi" ∈ fillBuffer (rtForward (constSession exRows none)) "EN" 7
        ["greeting", "farewell"] exRows ∧
      (∃ pre post : String,
        (TranslationListHandler (rtForward (constSession exRows none)) [] exValues).response.body
          = pre ++ ("<translation name=\"" ++ "greeting" ++ "\">" ++ "Hi" ++ "</translation>")
            ++ post) :=
  have h := store_hit_verbatim (rtForward (constSession exRows none)) [] exValues 7
    "EN" ["greeting", "farewell"] exRows ⟨"greeting", "Hi"⟩ (rtForward_valid _)
    exValues_validated rfl (by decide) (by decide)
  ⟨h.2.2.1, h.2.2.2.1⟩

/-- C1 (as stated, refuted): (1) for `t=greeting&t=greeting` the store returns
the row `greeting` twice without error and the 200 body holds two elements
named `greeting`: the names have a duplicate and the second occurrence is
emitted; (2) for `t=a` the store returns one row named `a` whose value holds
markup, and the body holds an element named `zzz`, which was not requested. -/
theorem duplicate_row_emitted_twice :
    (Validated [("site", "7"), ("lang", "EN"), ("t", "greeting"), ("t", "greeting")] 7 "EN"
        ["greeting", "greeting"] ∧
      (TranslationListHandler
          (rtForward (constSession [⟨"greeting", "Hi"⟩, ⟨"greeting", "Hi"⟩] none)) []
          [("site", "7"), ("lang", "EN"), ("t", "greeting"), ("t", "greeting")]).response
        = { status := 200
            header := [("Content-Type", "text/xml")]
            body := "<?xml version=\"1.0\" encoding=\"UTF-8\"?>\n<translations>"
              ++ "<translation name=\"greeting\">Hi</translation>"
              ++ "<translation name=\"greeting\">Hi</translation>"
              ++ "</translations>" } ∧
      bodyElementNames (TranslationListHandler
          (rtForward (constSession [⟨"greeting", "Hi"⟩, ⟨"greeting", "Hi"⟩] none)) []
          [("site", "7"), ("lang", "EN"), ("t", "greeting"), ("t", "greeting")]).response.body
        = ["greeting", "greeting"] ∧
      ¬ (bodyElementNames (TranslationListHandler
          (rtForward (constSession [⟨"greeting", "Hi"⟩, ⟨"greeting", "Hi"⟩] none)) []
          [("site", "7"), ("lang", "EN"), ("t", "greeting"),
            ("t", "greeting")]).response.body).Nodup) ∧
    (Validated [("site", "7"), ("lang", "EN"), ("t", "a")] 7 "EN" ["a"] ∧
      (TranslationListHandler (rtForward (constSession (exMarkupRows "zzz") none)) []
          [("site", "7"), ("lang", "EN"), ("t", "a")]).response
        = { status := 200
            header := [("Content-Type", "text/xml")]
            body := "<?xml version=\"1.0\" encoding=\"UTF-8\"?>\n<translations>"
              ++ "<translation name=\"a\">x</translation>"
              ++ "<translation name=\"zzz\">FAKE</translation>"
              ++ "</translations>" } ∧
      bodyElementNames (TranslationListHandler
          (rtForward (constSession (exMarkupRows "zzz") none)) []
          [("site", "7"), ("lang", "EN"), ("t", "a")]).response.body = ["a", "zzz"] ∧
      "zzz" ∉ ["a"]) := by
  refine ⟨⟨⟨⟨"7", by decide, by decide⟩, by decide, by decide, by decide⟩, by rfl, by rfl,
      ?_⟩,
    ⟨⟨"7", by decide, by decide⟩, by decide, by decide, by decide⟩, by rfl, by rfl,
      by decide⟩
  have e : bodyElementNames (TranslationListHandler
      (rtForward (constSession [⟨"greeting", "Hi"⟩, ⟨"greeting", "Hi"⟩] none)) []
      [("site", "7"), ("lang", "EN"), ("t", "greeting"), ("t", "greeting")]).response.body
      = ["greeting", "greeting"] := by rfl
  rw [e]
  decide

/-- C1 (amended): for a request that passes validation, rows returned without
error, and nothing copied into the body holding markup (no `<` in a row name,
row value, requested key or the lower-cased language, no `"` in a row name or
requested key), the response is 200 and the names of the `<translation>`
elements of its body are the names of all returned rows, in order, followed by
the pending keys, each once.  Hence a name occurs as often as rows carry it, or
once when no row carries it and it was requested; every requested key is the
name of an element; and when the rows have distinct names that were all
requested, the names have no duplicates and are exactly the requested keys. -/
theorem element_names_of_response (rt : Runtime) (header : Header) (values : Values)
    (site : Int) (lang : String) (tArgs : List String) (rows : List Row)
    (hrt : rt.Valid) (hv : Validated values site lang tArgs)
    (hq : rt.session ⟨lang, site, tArgs⟩ = ⟨rows, none⟩)
    (hclean : NoMarkup rt lang tArgs rows) :
    (TranslationListHandler rt header values).response.status = 200 ∧
      bodyElementNames (TranslationListHandler rt header values).response.body
        = rows.map Row.name ++ rt.mapRange (pendingKeys tArgs rows) ∧
      (∀ k, (bodyElementNames (TranslationListHandler rt header values).response.body).count k
        = if k ∈ rows.map Row.name then (rows.map Row.name).count k
          else if k ∈ tArgs then 1 else 0) ∧
      (∀ k ∈ tArgs, k ∈ bodyElementNames (TranslationListHandler rt header values).response.body) ∧
      ((rows.map Row.name).Nodup → (∀ r ∈ rows, r.name ∈ tArgs) →
        (bodyElementNames (TranslationListHandler rt header values).response.body).Nodup ∧
        ∀ n, n ∈ bodyElementNames (TranslationListHandler rt header values).response.body
          ↔ n ∈ tArgs) := by
  have hresp := response_ok rt header values site lang tArgs rows hv hq
  have hnames : bodyElementNames (TranslationListHandler rt header values).response.body
      = rows.map Row.name ++ rt.mapRange (pendingKeys tArgs rows) := by
    unfold bodyElementNames
    rw [bodyElements_response rt header values site lang tArgs rows hrt hv hq hclean,
      List.map_append, List.map_map, List.map_map]
    congr 1
    exact List.map_id _
  have hmemP := mem_mapRange rt hrt tArgs rows
  have hndP : (rt.mapRange (pendingKeys tArgs rows)).Nodup :=
    (hrt (pendingKeys tArgs rows)).nodup_iff.mpr (nodup_pendingKeys tArgs rows)
  have hmem : ∀ n, n ∈ rows.map Row.name ++ rt.mapRange (pendingKeys tArgs rows) ↔
      n ∈ rows.map Row.name ∨ n ∈ tArgs := by
    intro n
    rw [List.mem_append, hmemP]
    tauto
  rw [hnames]
  refine ⟨by rw [hresp], rfl, ?_, ?_, ?_⟩
  · intro k
    rw [List.count_append]
    by_cases h1 : k ∈ rows.map Row.name
    · have h2 : k ∉ rt.mapRange (pendingKeys tArgs rows) := fun h => ((hmemP k).mp h).2 h1
      rw [if_pos h1, List.count_eq_zero_of_not_mem h2, Nat.add_zero]
    · rw [if_neg h1, List.count_eq_zero_of_not_mem h1, Nat.zero_add]
      by_cases h2 : k ∈ tArgs
      · rw [if_pos h2]
        exact List.count_eq_one_of_mem hndP ((hmemP k).mpr ⟨h2, h1⟩)
      · rw [if_neg h2]
        exact List.count_eq_zero_of_not_mem (fun h => h2 ((hmemP k).mp h).1)
  · intro k hk
    exact (hmem k).mpr (Or.inr hk)
  · intro hnd hsub
    constructor
    · rw [List.nodup_append]
      refine ⟨hnd, hndP, ?_⟩
      intro a ha hb
      exact ((hmemP a).mp hb).2 ha
    · intro n
      rw [hmem]
      constructor
      · rintro (h | h)
        · obtain ⟨r, hr, rfl⟩ := List.mem_map.mp h
          exact hsub r hr
        · exact h
      · intro h
        exact Or.inr h

theorem element_names_of_response_witness :
    bodyElementNames (TranslationListHandler (rtForward (constSession exRows none)) []
        exValues).response.body
      = exRows.map Row.name
        ++ (rtForward (constSession exRows none)).mapRange
            (pendingKeys ["greeting", "farewell"] exRows) ∧
      exRows.map Row.name ++ (rtForward (constSession exRows none)).mapRange
            (pendingKeys ["greeting", "farewell"] exRows) = ["greeting", "farewell"] ∧
      (bodyElementNames (TranslationListHandler (rtForward (constSession exRows none)) []
        exValues).response.body).Nodup :=
  have h := element_names_of_response (rtForward (constSession exRows none)) [] exValues 7
    "EN" ["greeting", "farewell"] exRows (rtForward_valid _) exValues_validated rfl
    (exNoMarkup _ rfl)
  ⟨h.2.1, by decide, (h.2.2.2.2 (by decide) (by decide)).1⟩

/-- C4 (as stated, refuted): a request without `site` is answered with status
400, but the body is not exactly the text `site param missing`: `http.Error`
ends the message with a newline. -/
theorem missing_site_body_ends_with_newline :
    Values.lookup [] "site" = [] ∧
      (TranslationListHandler (rtForward (constSession [] none)) [] []).response.status = 400 ∧
      (TranslationListHandler (rtForward (constSession [] none)) [] []).response.body
        = "site param missing\n" ∧
      (TranslationListHandler (rtForward (constSession [] none)) [] []).response.body
        ≠ "site param missing" := by
  refine ⟨by decide, by decide, by decide, by decide⟩

/-- C4 (amended): for every query, if `site` is absent the response is 400 with
body `site param missing` followed by a newline; otherwise if the first `site`
value does not parse as a base-10 signed 64-bit integer it is 400 with body
`site param must be int` and a newline; otherwise if `lang` is absent it is
400 with body `lang param missing` and a newline; otherwise if no `t` is
present it is 400 with body `t params missing` and a newline; otherwise the
parsed site lies in the signed 64-bit range and the status is 200 or 503, not
400. -/
theorem validation_table (rt : Runtime) (header : Header) (values : Values) :
    (values.lookup "site" = [] →
        (TranslationListHandler rt header values).response.status = 400 ∧
        (TranslationListHandler rt header values).response.body = "site param missing\n") ∧
      (∀ s ss, values.lookup "site" = s :: ss → ParseInt s = none →
        (TranslationListHandler rt header values).response.status = 400 ∧
        (TranslationListHandler rt header values).response.body
          = "site param must be int\n") ∧
      (∀ s ss site, values.lookup "site" = s :: ss → ParseInt s = some site →
        values.lookup "lang" = [] →
        (TranslationListHandler rt header values).response.status = 400 ∧
        (TranslationListHandler rt header values).response.body = "lang param missing\n") ∧
      (∀ s ss site, values.lookup "site" = s :: ss → ParseInt s = some site →
        values.lookup "lang" ≠ [] → values.lookup "t" = [] →
        (TranslationListHandler rt header values).response.status = 400 ∧
        (TranslationListHandler rt header values).response.body = "t params missing\n") ∧
      (∀ s ss site, values.lookup "site" = s :: ss → ParseInt s = some site →
        values.lookup "lang" ≠ [] → values.lookup "t" ≠ [] →
        (-(2 : Int) ^ 63 ≤ site ∧ site < (2 : Int) ^ 63) ∧
        (TranslationListHandler rt header values).response.status ≠ 400 ∧
        ((TranslationListHandler rt header values).response.status = 200 ∨
          (TranslationListHandler rt header values).response.status = 503)) := by
  refine ⟨?_, ?_, ?_, ?_, ?_⟩
  · intro hs
    unfold TranslationListHandler
    simp only [hs]
    exact ⟨rfl, rfl⟩
  · intro s ss hs hp
    unfold TranslationListHandler
    simp only [hs, hp]
    exact ⟨rfl, rfl⟩
  · intro s ss site hs hp hl
    unfold TranslationListHandler
    simp only [hs, hp, hl]
    exact ⟨rfl, rfl⟩
  · intro s ss site hs hp hl ht
    unfold TranslationListHandler
    simp only [hs, hp, ht]
    cases hlang : values.lookup "lang" with
    | nil => exact absurd hlang hl
    | cons l0 ls => exact ⟨rfl, rfl⟩
  · intro s ss site hs hp hl ht
    have hv : Validated values site ((values.lookup "lang").head hl) (values.lookup "t") := by
      refine ⟨⟨s, by rw [hs]; rfl, hp⟩, ?_, rfl, ht⟩
      exact (List.head?_eq_head hl)
    have h := validated_status rt header values _ _ _ hv
    refine ⟨ParseInt_range s site hp, ?_, h⟩
    rcases h with h | h <;> rw [h] <;> decide

theorem validation_table_witness :
    ((TranslationListHandler (rtForward (constSession [] none)) []
        [("site", "seven"), ("lang", "EN")]).response.status = 400 ∧
      (TranslationListHandler (rtForward (constSession [] none)) []
        [("site", "seven"), ("lang", "EN")]).response.body = "site param must be int\n") ∧
    ((TranslationListHandler (rtForward (constSession [] none)) []
        [("site", "7"), ("lang", "EN")]).response.status = 400 ∧
      (TranslationListHandler (rtForward (constSession [] none)) []
        [("site", "7"), ("lang", "EN")]).response.body = "t params missing\n") :=
  ⟨(validation_table (rtForward (constSession [] none)) []
      [("site", "seven"), ("lang", "EN")]).2.1 "seven" [] (by decide) (by decide),
   (validation_table (rtForward (constSession [] none)) []
      [("site", "7"), ("lang", "EN")]).2.2.2.1 "7" [] 7 (by decide) (by decide) (by decide)
      (by decide)⟩

/-- C5 (as stated, refuted): a request that passes validation and a store that
ends with the error `timeout` give status 503, but the body is not equal to
the message of the error: `http.Error` ends it with a newline. -/
theorem store_error_body_ends_with_newline :
    Validated exValues 7 "EN" ["greeting", "farewell"] ∧
      (TranslationListHandler (rtForward (constSession exRows (some "timeout"))) []
        exValues).response.status = 503 ∧
      (TranslationListHandler (rtForward (constSession exRows (some "timeout"))) []
        exValues).response.body = "timeout\n" ∧
      (TranslationListHandler (rtForward (constSession exRows (some "timeout"))) []
        exValues).response.body ≠ "timeout" := by
  refine ⟨⟨⟨"7", by decide, by decide⟩, by decide, by decide, by decide⟩, by decide,
    by decide, by decide⟩

/-- C5 (amended): for a request that passes validation, if the store ends with
an error `e`, after any rows, the response is `http.Error` with status 503:
its body is the message of `e` followed by a newline and nothing else, so none
of the buffered XML is written, neither rows already scanned nor fallbacks. -/
theorem store_error_is_503 (rt : Runtime) (header : Header) (values : Values)
    (site : Int) (lang : String) (tArgs : List String) (rows : List Row) (e : String)
    (hv : Validated values site lang tArgs)
    (hq : rt.session ⟨lang, site, tArgs⟩ = ⟨rows, some e⟩) :
    (TranslationListHandler rt header values).response =
      { status := 503
        header := [("Content-Type", "text/plain; charset=utf-8"),
                   ("X-Content-Type-Options", "nosniff")]
        body := e ++ "\n" } := by
  rw [handler_validated rt header values site lang tArgs hv, hq]
  rfl

theorem store_error_is_503_witness :
    (TranslationListHandler (rtForward (constSession exRows (some "timeout"))) []
        exValues).response =
      { status := 503
        header := [("Content-Type", "text/plain; charset=utf-8"),
                   ("X-Content-Type-Options", "nosniff")]
        body := "timeout" ++ "\n" } :=
  store_error_is_503 (rtForward (constSession exRows (some "timeout"))) [] exValues 7 "EN"
    ["greeting", "farewell"] exRows "timeout" exValues_validated rfl

/-- C6 (as stated, refuted): the request `site=7&lang=EN&t=hello&t=bye` with a
store that holds neither key is handled twice, once with `range` visiting the
pending keys in one order and once in the other, both of which Go permits;
the two bodies differ. -/
theorem fallback_order_changes_body :
    (rtForward (constSession [] none)).Valid ∧ (rtBackward (constSession [] none)).Valid ∧
      (TranslationListHandler (rtForward (constSession [] none)) []
          [("site", "7"), ("lang", "EN"), ("t", "hello"), ("t", "bye")]).response.body
        = "<?xml version=\"1.0\" encoding=\"UTF-8\"?>\n<translations>"
            ++ "<translation name=\"hello\">[en:7][hello]</translation>"
            ++ "<translation name=\"bye\">[en:7][bye]</translation></translations>" ∧
      (TranslationListHandler (rtBackward (constSession [] none)) []
          [("site", "7"), ("lang", "EN"), ("t", "hello"), ("t", "bye")]).response.body
        = "<?xml version=\"1.0\" encoding=\"UTF-8\"?>\n<translations>"
            ++ "<translation name=\"bye\">[en:7][bye]</translation>"
            ++ "<translation name=\"hello\">[en:7][hello]</translation></translations>" ∧
      (TranslationListHandler (rtForward (constSession [] none)) []
          [("site", "7"), ("lang", "EN"), ("t", "hello"), ("t", "bye")]).response.body
        ≠ (TranslationListHandler (rtBackward (constSession [] none)) []
          [("site", "7"), ("lang", "EN"), ("t", "hello"), ("t", "bye")]).response.body := by
  refine ⟨rtForward_valid _, rtBackward_valid _, by rfl, by rfl, by decide⟩

/-- C6 (amended): for a fixed request that passes validation and a fixed row
sequence returned without error, any two invocations return bodies that are
both the XML declaration, the opening `<translations>`, the row elements in
the order of the rows (the same bytes in both), the fallback elements in the
order of the respective `range`, and the closing tag; the two range orders are
permutations of each other, so the bodies hold the same elements and differ at
most in the order of the fallback elements; and the two responses are
identical when at most one requested key is pending after the rows. -/
theorem bodies_equal_up_to_fallback_order (rt1 rt2 : Runtime) (header : Header)
    (values : Values) (site : Int) (lang : String) (tArgs : List String) (rows : List Row)
    (h1 : rt1.Valid) (h2 : rt2.Valid) (hs : rt1.session = rt2.session)
    (hl : rt1.ToLower = rt2.ToLower) (hv : Validated values site lang tArgs)
    (hq : rt1.session ⟨lang, site, tArgs⟩ = ⟨rows, none⟩) :
    (TranslationListHandler rt1 header values).response.body
        = "<?xml version=\"1.0\" encoding=\"UTF-8\"?>\n" ++ "<translations>"
          ++ String.join (rows.map (fun r =>
              "<translation name=\"" ++ r.name ++ "\">" ++ r.value ++ "</translation>"))
          ++ String.join ((rt1.mapRange (pendingKeys tArgs rows)).map (fun k =>
              "<translation name=\"" ++ k ++ "\">[" ++ rt1.ToLower lang ++ ":"
                ++ toString site ++ "][" ++ k ++ "]</translation>"))
          ++ "</translations>" ∧
      (TranslationListHandler rt2 header values).response.body
        = "<?xml version=\"1.0\" encoding=\"UTF-8\"?>\n" ++ "<translations>"
          ++ String.join (rows.map (fun r =>
              "<translation name=\"" ++ r.name ++ "\">" ++ r.value ++ "</translation>"))
          ++ String.join ((rt2.mapRange (pendingKeys tArgs rows)).map (fun k =>
              "<translation name=\"" ++ k ++ "\">[" ++ rt1.ToLower lang ++ ":"
                ++ toString site ++ "][" ++ k ++ "]</translation>"))
          ++ "</translations>" ∧
      (TranslationListHandler rt1 header values).response.body
        = bufferBytes (fillBuffer rt1 lang site tArgs rows) ∧
      (TranslationListHandler rt2 header values).response.body
        = bufferBytes (fillBuffer rt2 lang site tArgs rows) ∧
      (rt1.mapRange (pendingKeys tArgs rows)).Perm (rt2.mapRange (pendingKeys tArgs rows)) ∧
      (fillBuffer rt1 lang site tArgs rows).Perm (fillBuffer rt2 lang site tArgs rows) ∧
      ((pendingKeys tArgs rows).length ≤ 1 →
        (TranslationListHandler rt1 header values).response
          = (TranslationListHandler rt2 header values).response) := by
  have hq2 : rt2.session ⟨lang, site, tArgs⟩ = ⟨rows, none⟩ := by rw [← hs]; exact hq
  have hr1 := response_ok rt1 header values site lang tArgs rows hv hq
  have hr2 := response_ok rt2 header values site lang tArgs rows hv hq2
  have hp : (rt1.mapRange (pendingKeys tArgs rows)).Perm
      (rt2.mapRange (pendingKeys tArgs rows)) := (h1 _).trans (h2 _).symm
  refine ⟨?_, ?_, by rw [hr1], by rw [hr2], hp, ?_, ?_⟩
  · rw [hr1, bufferBytes_fillBuffer]
    rfl
  · rw [hr2, bufferBytes_fillBuffer, hl]
    rfl
  · rw [fillBuffer_eq, fillBuffer_eq, hl]
    exact List.Perm.append_right _ (List.Perm.append_left _ (hp.map _))
  · intro hlen
    have e1 := perm_eq_of_length_le_one _ _ (h1 (pendingKeys tArgs rows)) hlen
    have e2 := perm_eq_of_length_le_one _ _ (h2 (pendingKeys tArgs rows)) hlen
    rw [hr1, hr2, fillBuffer_eq, fillBuffer_eq, hl, e1, e2]

theorem bodies_equal_up_to_fallback_order_witness :
    (TranslationListHandler (rtForward (constSession exRows none)) [] exValues).response
      = (TranslationListHandler (rtBackward (constSession exRows none)) [] exValues).response :=
  (bodies_equal_up_to_fallback_order (rtForward (constSession exRows none))
    (rtBackward (constSession exRows none)) [] exValues 7 "EN" ["greeting", "farewell"] exRows
    (rtForward_valid _) (rtBackward_valid _) rfl rfl exValues_validated rfl).2.2.2.2.2.2
    (by decide)

/-- C7: on every path of the handler (the four rejections, the store failure
and the success) the log starts with the INFO record whose message is
`application.<id>: finished handler TranslationListHandler: total=<ms> code=<c>`,
where `<id>` is the value of the header `X-Request-Id` (its first value; empty
when the header is absent), `<ms>` the rendered elapsed time and `<c>` the
status code of the response in decimal, and no other record of the log has a
message of that form for any id, time and code; the status is 200, 400 or
503. -/
theorem one_completion_record (rt : Runtime) (header : Header) (values : Values) :
    (∃ rest : List LogRecord,
        (TranslationListHandler rt header values).log
          = ⟨Level.INFO, "application." ++ header.Get "X-Request-Id"
              ++ ": finished handler TranslationListHandler: total=" ++ rt.total ++ " code="
              ++ toString (TranslationListHandler rt header values).response.status⟩ :: rest ∧
        ∀ r ∈ rest, ∀ requestId total code : String,
          r.msg ≠ "application." ++ requestId
            ++ ": finished handler TranslationListHandler: total=" ++ total ++ " code="
            ++ code) ∧
      ((∀ p ∈ header, p.1 ≠ "X-Request-Id") → header.Get "X-Request-Id" = "") ∧
      (∀ pre v post, header = pre ++ ("X-Request-Id", v) :: post →
        (∀ p ∈ pre, p.1 ≠ "X-Request-Id") → header.Get "X-Request-Id" = v) ∧
      ((TranslationListHandler rt header values).response.status = 200 ∨
        (TranslationListHandler rt header values).response.status = 400 ∨
        (TranslationListHandler rt header values).response.status = 503) := by
  have hlog := log_shape rt header values
  refine ⟨hlog.1, ?_, ?_, hlog.2⟩
  · intro habs
    unfold Header.Get
    have : header.find? (fun p => p.1 = "X-Request-Id") = none := by
      rw [List.find?_eq_none]
      intro p hp
      simpa using habs p hp
    rw [this]
  · intro pre v post hh hpre
    subst hh
    exact headerGet_first pre "X-Request-Id" v post hpre

theorem one_completion_record_witness :
    (∃ rest : List LogRecord,
        (TranslationListHandler (rtForward (constSession exRows none))
            [("Accept", "text/xml"), ("X-Request-Id", "r-17")] exValues).log
          = ⟨Level.INFO, "application."
              ++ Header.Get [("Accept", "text/xml"), ("X-Request-Id", "r-17")] "X-Request-Id"
              ++ ": finished handler TranslationListHandler: total="
              ++ (rtForward (constSession exRows none)).total ++ " code="
              ++ toString (TranslationListHandler (rtForward (constSession exRows none))
                  [("Accept", "text/xml"), ("X-Request-Id", "r-17")]
                  exValues).response.status⟩ :: rest ∧
        ∀ r ∈ rest, ∀ requestId total code : String,
          r.msg ≠ "application." ++ requestId
            ++ ": finished handler TranslationListHandler: total=" ++ total ++ " code="
            ++ code) ∧
    (TranslationListHandler (rtForward (constSession exRows none))
        [("Accept", "text/xml"), ("X-Request-Id", "r-17")] exValues).log
      = [⟨Level.INFO,
          "application.r-17: finished handler TranslationListHandler: total=0.42 code=200"⟩] ∧
    (TranslationListHandler (rtForward (constSession exRows (some "timeout")))
        [("Accept", "text/xml")] exValues).log
      = [⟨Level.INFO,
          "application.: finished handler TranslationListHandler: total=0.42 code=503"⟩,
         ⟨Level.ERROR, "failed to get data from cassandra: timeout"⟩] ∧
    Header.Get [("Accept", "text/xml")] "X-Request-Id" = "" ∧
    Header.Get [("Accept", "text/xml"), ("X-Request-Id", "r-17")] "X-Request-Id" = "r-17" :=
  have h := one_completion_record (rtForward (constSession exRows none))
    [("Accept", "text/xml")] exValues
  have h2 := one_completion_record (rtForward (constSession exRows none))
    [("Accept", "text/xml"), ("X-Request-Id", "r-17")] exValues
  ⟨h2.1, by decide, by decide, h.2.1 (by decide),
    h2.2.2.1 [("Accept", "text/xml")] "r-17" [] rfl (by decide)⟩

/-- C8: whenever the handler rejects a request with status 400, it issues no
query to the store, and its whole outcome (response, log, queries) is the same
for every store. -/
theorem rejection_never_reaches_store (rt : Runtime) (header : Header) (values : Values)
    (h : (TranslationListHandler rt header values).response.status = 400) :
    (TranslationListHandler rt header values).queries = [] ∧
      ∀ s : Session,
        TranslationListHandler { rt with session := s } header values
          = TranslationListHandler rt header values := by
  rcases handler_reject_or_validated header values with ⟨msg, hm⟩ | ⟨site, lang, tArgs, hv⟩
  · refine ⟨by rw [hm rt]; rfl, fun s => ?_⟩
    rw [hm rt, hm { rt with session := s }]
    rfl
  · rcases validated_status rt header values site lang tArgs hv with h2 | h2
    · rw [h2] at h; exact absurd h (by decide)
    · rw [h2] at h; exact absurd h (by decide)

theorem rejection_never_reaches_store_witness :
    (TranslationListHandler (rtForward (constSession exRows none)) []
        [("site", "7"), ("t", "greeting")]).queries = [] ∧
      ∀ s : Session,
        TranslationListHandler { rtForward (constSession exRows none) with session := s } []
            [("site", "7"), ("t", "greeting")]
          = TranslationListHandler (rtForward (constSession exRows none)) []
            [("site", "7"), ("t", "greeting")] :=
  rejection_never_reaches_store (rtForward (constSession exRows none)) []
    [("site", "7"), ("t", "greeting")] (by decide)

/-- C9 (as stated, refuted): the request `site=1&lang=&t=a`, whose `lang` is
present but empty, is not rejected: the query is issued with the empty
language code and the response is 200. -/
theorem empty_lang_is_accepted :
    Values.lookup [("site", "1"), ("lang", ""), ("t", "a")] "lang" = [""] ∧
      (TranslationListHandler (rtForward (constSession [] none)) []
          [("site", "1"), ("lang", ""), ("t", "a")]).queries = [⟨"", 1, ["a"]⟩] ∧
      (TranslationListHandler (rtForward (constSession [] none)) []
          [("site", "1"), ("lang", ""), ("t", "a")]).response.status = 200 ∧
      (TranslationListHandler (rtForward (constSession [] none)) []
          [("site", "1"), ("lang", ""), ("t", "a")]).response.body
        = "<?xml version=\"1.0\" encoding=\"UTF-8\"?>\n<translations>"
            ++ "<translation name=\"a\">[:1][a]</translation></translations>" := by
  refine ⟨by decide, by decide, by decide, by rfl⟩

/-- C9 (amended): every request that reaches the store query has `lang` present
and at least one `t` value: the one query carries the first `lang` value, which
may be the empty string, the parsed site, and the non-empty list of all `t`
values; and the status is not 400. -/
theorem accepted_request_shape (rt : Runtime) (header : Header) (values : Values)
    (h : (TranslationListHandler rt header values).queries ≠ []) :
    (∃ site lang langs t ts,
        values.lookup "lang" = lang :: langs ∧ values.lookup "t" = t :: ts ∧
        (TranslationListHandler rt header values).queries = [⟨lang, site, t :: ts⟩]) ∧
      (TranslationListHandler rt header values).response.status ≠ 400 := by
  rcases handler_reject_or_validated header values with ⟨msg, hm⟩ | ⟨site, lang, tArgs, hv⟩
  · rw [hm rt] at h
    exact absurd rfl h
  · have hst := validated_status rt header values site lang tArgs hv
    have hh := handler_validated rt header values site lang tArgs hv
    obtain ⟨_, hl, ht, hne⟩ := hv
    constructor
    · cases hlang : values.lookup "lang" with
      | nil => rw [hlang] at hl; simp at hl
      | cons l0 ls =>
        rw [hlang] at hl
        simp only [List.head?_cons, Option.some.injEq] at hl
        subst hl
        cases htt : values.lookup "t" with
        | nil => rw [htt] at ht; exact absurd ht.symm hne
        | cons t0 ts =>
          rw [htt] at ht
          subst ht
          refine ⟨site, l0, ls, t0, ts, rfl, rfl, ?_⟩
          rw [hh]
          cases (rt.session ⟨l0, site, t0 :: ts⟩).err <;> rfl
    · rcases hst with h2 | h2 <;> rw [h2] <;> decide

theorem accepted_request_shape_witness :
    (∃ site lang langs t ts,
        Values.lookup [("site", "1"), ("lang", ""), ("t", "a")] "lang" = lang :: langs ∧
        Values.lookup [("site", "1"), ("lang", ""), ("t", "a")] "t" = t :: ts ∧
        (TranslationListHandler (rtForward (constSession [] none)) []
          [("site", "1"), ("lang", ""), ("t", "a")]).queries = [⟨lang, site, t :: ts⟩]) ∧
      (TranslationListHandler (rtForward (constSession [] none)) []
          [("site", "1"), ("lang", ""), ("t", "a")]).response.status ≠ 400 :=
  accepted_request_shape (rtForward (constSession [] none)) []
    [("site", "1"), ("lang", ""), ("t", "a")] (by decide)

end GoTrans
